import Mathlib

/-!
Verification of `.github/scripts/xccov_to_lcov.py`: a converter from xccov
JSON coverage reports to the LCOV text format.

The JSON input is modelled structurally: a dictionary field that the Python
code accesses with `d['key']` (raising `KeyError` when absent) is an
`Option` field read through `req`, which fails with the field's name, and a
field accessed with `d.get('key', [])` is an `Option` field read through
`Option.getD`.  The Python function writes one line (terminated by a
newline) per `out.write` call; the converter is modelled as producing the
list of those lines, in write order, inside `Except String` whose error is
the name of the missing required field (Python's `KeyError` argument).
-/

/-- A Function Coverage entry: the JSON object
`{"name": ..., "lineNumber": ..., "executionCount": ...}`.
All three fields are accessed with `func['...']` in the source, so each is
required; absence raises a `KeyError`. -/
structure FuncData where
  name : Option String
  lineNumber : Option Nat
  executionCount : Option Nat
deriving Repr, DecidableEq

/-- A File Coverage entry: `path`, `executableLines` and `coveredLines` are
required (`file_data['...']`); `functions` is optional and defaults to `[]`
(`file_data.get('functions', [])`). -/
structure FileData where
  path : Option String
  executableLines : Option Nat
  coveredLines : Option Nat
  functions : Option (List FuncData)
deriving Repr, DecidableEq

/-- A Target entry: `files` is optional, defaulting to `[]`
(`target.get('files', [])`). -/
structure TargetData where
  files : Option (List FileData)
deriving Repr, DecidableEq

/-- The parsed JSON document: `targets` is optional, defaulting to `[]`
(`data.get('targets', [])`). -/
structure CoverageData where
  targets : Option (List TargetData)
deriving Repr, DecidableEq

/-- Required-field access `d['key']`: a missing field raises `KeyError(key)`,
modelled as `Except.error key`. -/
def req {α : Type} (o : Option α) (key : String) : Except String α :=
  match o with
  | none => .error key
  | some a => .ok a

/-- Structural recursion mirroring a Python `for` loop that processes each
element in order and stops at the first raised exception. -/
def mapE {α β : Type} (f : α → Except String β) : List α → Except String (List β)
  | [] => .ok []
  | x :: xs => do
    let y ← f x
    let ys ← mapE f xs
    pure (y :: ys)

/-- One iteration of the first function loop:
`name = func['name']; line = func['lineNumber']; count = func['executionCount']`
followed by the two writes `FN:{line},{name}` and `FNDA:{count},{name}`. -/
def emitFunctionDef (fn : FuncData) : Except String (List String) := do
  let name ← req fn.name "name"
  let line ← req fn.lineNumber "lineNumber"
  let count ← req fn.executionCount "executionCount"
  pure ["FN:" ++ toString line ++ "," ++ name,
        "FNDA:" ++ toString count ++ "," ++ name]

/-- One iteration of the line loop:
`line = func['lineNumber']; count = func['executionCount']` followed by the
write `DA:{line},{count}`. -/
def emitDaLine (fn : FuncData) : Except String String := do
  let line ← req fn.lineNumber "lineNumber"
  let count ← req fn.executionCount "executionCount"
  pure ("DA:" ++ toString line ++ "," ++ toString count)

/-- `covered_functions = sum(1 for f in funcs if f['executionCount'] > 0)`:
each element's `executionCount` is a required access, and the ones strictly
greater than zero are counted. -/
def countCovered (funcs : List FuncData) : Except String Nat := do
  let counts ← mapE (fun fn => req fn.executionCount "executionCount") funcs
  pure (counts.countP (fun c => decide (0 < c)))

/-- The body of the per-file loop: the full LCOV record written for one
File Coverage, one list element per `out.write` call, in source order
(`TN:`, `SF:`, the `FN:`/`FNDA:` pairs, `FNF:`/`FNH:`, the `DA:` lines,
`LF:`, `LH:`, `end_of_record`).  Field accesses happen in the source's
evaluation order, so the first missing field in that order is reported. -/
def fileRecord (file_data : FileData) : Except String (List String) := do
  let path ← req file_data.path "path"
  let funcs := file_data.functions.getD []
  let fnPairs ← mapE emitFunctionDef funcs
  let total_functions := funcs.length
  let covered_functions ← countCovered funcs
  let daLines ← mapE emitDaLine funcs
  let lf ← req file_data.executableLines "executableLines"
  let lh ← req file_data.coveredLines "coveredLines"
  pure (["TN:", "SF:" ++ path]
        ++ fnPairs.flatten
        ++ ["FNF:" ++ toString total_functions,
            "FNH:" ++ toString covered_functions]
        ++ daLines
        ++ ["LF:" ++ toString lf, "LH:" ++ toString lh, "end_of_record"])

/-- `convert_xccov_to_lcov`, modelled as the list of lines written to the
output file: the two nested loops `for target in data.get('targets', [])`
and `for file_data in target.get('files', [])`, concatenating each file's
record in order. -/
def convert_xccov_to_lcov (data : CoverageData) : Except String (List String) := do
  let targets := data.targets.getD []
  let recordsPerTarget ← mapE (fun target => mapE fileRecord (target.files.getD [])) targets
  pure ((recordsPerTarget.map List.flatten).flatten)

/-- The exact bytes written to the output file: every `out.write` argument
ends in a newline, so the file contents are the lines each followed by
`"\n"`. -/
def lcovBytes (data : CoverageData) : Except String String :=
  (convert_xccov_to_lcov data).map
    (fun lines => String.join (lines.map (fun l => l ++ "\n")))

/-- The input of the spec's concrete scenario. -/
def sampleInput : CoverageData :=
  ⟨some [⟨some [⟨some "A.swift", some 10, some 7,
    some [⟨some "f()", some 3, some 2⟩, ⟨some "g()", some 8, some 0⟩]⟩]⟩]⟩

/-! ## Well-formed inputs

A well-formed input is one where every required field is present.  Such
inputs are parametrised by plain tuples: a function is a
`name × lineNumber × executionCount` triple, a file is a
`path × executableLines × coveredLines × functions` tuple. -/

/-- A fully specified Function Coverage entry: name, lineNumber, executionCount. -/
abbrev FuncSpec : Type := String × Nat × Nat

/-- A fully specified File Coverage entry:
path, executableLines, coveredLines, functions. -/
abbrev FileSpec : Type := String × Nat × Nat × List FuncSpec

/-- Build a `FuncData` with all required fields present. -/
def mkFunc (f : FuncSpec) : FuncData :=
  ⟨some f.1, some f.2.1, some f.2.2⟩

/-- Build a `FileData` with all required fields present. -/
def mkFile (p : String) (lf lh : Nat) (fs : List FuncSpec) : FileData :=
  ⟨some p, some lf, some lh, some (fs.map mkFunc)⟩

/-- Build a `FileData` from a `FileSpec`. -/
def mkFileSpec (f : FileSpec) : FileData :=
  mkFile f.1 f.2.1 f.2.2.1 f.2.2.2

/-- Build a whole well-formed input from a list of targets, each a list of
file specifications. -/
def mkData (tgts : List (List FileSpec)) : CoverageData :=
  ⟨some (tgts.map (fun fs => ⟨some (fs.map mkFileSpec)⟩))⟩

/-- The `FN:` line written for one function. -/
def fnLineOf (f : FuncSpec) : String :=
  "FN:" ++ toString f.2.1 ++ "," ++ f.1

/-- The `FNDA:` line written for one function. -/
def fndaLineOf (f : FuncSpec) : String :=
  "FNDA:" ++ toString f.2.2 ++ "," ++ f.1

/-- The `DA:` line written for one function. -/
def daLineOf (f : FuncSpec) : String :=
  "DA:" ++ toString f.2.1 ++ "," ++ toString f.2.2

/-- The full LCOV record for one well-formed File Coverage, in write order. -/
def recordOf (p : String) (lf lh : Nat) (fs : List FuncSpec) : List String :=
  ["TN:", "SF:" ++ p]
  ++ (fs.map (fun f => [fnLineOf f, fndaLineOf f])).flatten
  ++ ["FNF:" ++ toString fs.length,
      "FNH:" ++ toString (fs.countP (fun f => decide (0 < f.2.2)))]
  ++ fs.map daLineOf
  ++ ["LF:" ++ toString lf, "LH:" ++ toString lh, "end_of_record"]

/-- The record of a `FileSpec`. -/
def recordOfSpec (f : FileSpec) : List String :=
  recordOf f.1 f.2.1 f.2.2.1 f.2.2.2

/-- Character-level prefix test (recursing on the pattern first, so that it
evaluates on lines whose tail is symbolic). -/
def dataStarts (t s : List Char) : Bool :=
  match t with
  | [] => true
  | c :: cs =>
    match s with
    | [] => false
    | d :: ds => (c == d) && dataStarts cs ds

/-- A line starts with the given tag (checked on the character data). -/
def startsWithTag (tag s : String) : Bool :=
  dataStarts tag.data s.data

/-! ## Missing required fields (for the schema-error claim) -/

/-- Some required field of this Function Coverage entry is absent. -/
def funcHasMissing (fn : FuncData) : Bool :=
  fn.name.isNone || fn.lineNumber.isNone || fn.executionCount.isNone

/-- Some required field of this File Coverage entry (or of one of its
functions) is absent. -/
def fileHasMissing (fd : FileData) : Bool :=
  fd.path.isNone || fd.executableLines.isNone || fd.coveredLines.isNone
  || (fd.functions.getD []).any funcHasMissing

/-- Some File Coverage entry of the input lacks a required field. -/
def hasMissingRequired (d : CoverageData) : Bool :=
  (d.targets.getD []).any (fun t => (t.files.getD []).any fileHasMissing)

/-- The required field named `key` is absent from this Function Coverage entry. -/
def funcFieldMissing (fn : FuncData) (key : String) : Bool :=
  (key == "name" && fn.name.isNone)
  || (key == "lineNumber" && fn.lineNumber.isNone)
  || (key == "executionCount" && fn.executionCount.isNone)

/-- The required field named `key` is absent from this File Coverage entry
or from one of its functions. -/
def fileFieldMissing (fd : FileData) (key : String) : Bool :=
  (key == "path" && fd.path.isNone)
  || (key == "executableLines" && fd.executableLines.isNone)
  || (key == "coveredLines" && fd.coveredLines.isNone)
  || (fd.functions.getD []).any (fun fn => funcFieldMissing fn key)

/-- The required field named `key` is absent somewhere in the input. -/
def dataFieldMissing (d : CoverageData) (key : String) : Bool :=
  (d.targets.getD []).any (fun t => (t.files.getD []).any (fun fd => fileFieldMissing fd key))

/-- An input with a File Coverage entry whose `path` is absent. -/
def missingPathInput : CoverageData :=
  ⟨some [⟨some [⟨none, some 1, some 1, some []⟩]⟩]⟩

/-! ## The script's I/O sequencing (for the input-error claim)

The script body is
`with open(json_path) as f: data = json.load(f)` followed by
`with open(lcov_path, 'w') as out: ...writes...`: the input is opened,
read and parsed in full before the output file is opened.  An unreadable
file or invalid JSON raises inside the first statement, so the
`open(lcov_path, 'w')` that would create or truncate the output is never
reached. -/

/-- The input source handed to the script: a file that cannot be opened or
read, a readable file whose contents are not valid JSON, or a successfully
parsed document. -/
inductive InputSource where
  | unreadable
  | invalidJson
  | parsed (d : CoverageData)
deriving Repr

/-- `open(json_path)` followed by `json.load(f)`: the two failure modes
raise before anything else runs. -/
def readInput : InputSource → Except String CoverageData
  | .unreadable => .error "InputError: unreadable input"
  | .invalidJson => .error "InputError: invalid JSON"
  | .parsed d => .ok d

/-- Whether the run reaches `open(lcov_path, 'w')`, the statement that
creates or truncates the output file: only after `readInput` succeeds. -/
def outputTouched (src : InputSource) : Bool :=
  match readInput src with
  | .error _ => false
  | .ok _ => true

/-- The whole script run: read and parse the input, then convert. -/
def runScript (src : InputSource) : Except String (List String) := do
  let d ← readInput src
  convert_xccov_to_lcov d


/-! ## General lemmas -/

/-- Unfolding a successful `Except` bind. -/
theorem except_bind_ok {α β : Type} {x : Except String α} {g : α → Except String β} {b : β}
    (h : (x >>= g) = .ok b) : ∃ a, x = .ok a ∧ g a = .ok b := by
  cases x with
  | error e => exact Except.noConfusion h
  | ok a => exact ⟨a, rfl, h⟩

/-- Unfolding a failed `Except` bind. -/
theorem except_bind_error {α β : Type} {x : Except String α} {g : α → Except String β} {e : String}
    (h : (x >>= g) = .error e) : x = .error e ∨ ∃ a, x = .ok a ∧ g a = .error e := by
  cases x with
  | error e2 =>
    have h2 : (Except.error e2 : Except String β) = .error e := h
    cases h2
    exact Or.inl rfl
  | ok a => exact Or.inr ⟨a, rfl, h⟩

/-- A loop over elements that all succeed returns the mapped results. -/
theorem mapE_map_ok {α β γ : Type} (g : β → Except String γ) (h : α → β) (k : α → γ)
    (hk : ∀ x, g (h x) = .ok (k x)) (l : List α) : mapE g (l.map h) = .ok (l.map k) := by
  induction l with
  | nil => rfl
  | cons x xs ih =>
    simp only [List.map_cons, mapE, hk, ih]
    rfl

/-- If the loop succeeded, every element's body succeeded. -/
theorem mapE_ok_mem {α β : Type} {f : α → Except String β} {l : List α} {ys : List β}
    (h : mapE f l = .ok ys) : ∀ x ∈ l, ∃ y, f x = .ok y := by
  induction l generalizing ys with
  | nil => intro x hx; cases hx
  | cons z zs ih =>
    intro x hx
    rw [mapE] at h
    obtain ⟨a, hfz, h2⟩ := except_bind_ok h
    obtain ⟨as, hrest, _⟩ := except_bind_ok h2
    rcases List.mem_cons.mp hx with rfl | hmem
    · exact ⟨a, hfz⟩
    · exact ih hrest x hmem

/-- If the loop failed, the reported error is the error of some element's body. -/
theorem mapE_error_mem {α β : Type} {f : α → Except String β} {l : List α} {e : String}
    (h : mapE f l = .error e) : ∃ x ∈ l, f x = .error e := by
  induction l with
  | nil => exact Except.noConfusion h
  | cons z zs ih =>
    rw [mapE] at h
    rcases except_bind_error h with hz | ⟨a, _, h2⟩
    · exact ⟨z, List.mem_cons_self .., hz⟩
    · rcases except_bind_error h2 with hzs | ⟨as, _, h3⟩
      · obtain ⟨x, hmem, hx⟩ := ih hzs
        exact ⟨x, List.mem_cons_of_mem z hmem, hx⟩
      · exact Except.noConfusion h3

/-- Flattening per-target concatenation agrees with flattening the targets first. -/
theorem flatten_map_flatten {β γ : Type} (g : β → List γ) (tgts : List (List β)) :
    (tgts.map (fun fs => (fs.map g).flatten)).flatten = (tgts.flatten.map g).flatten := by
  induction tgts with
  | nil => rfl
  | cons t ts ih => simp [List.map_append, List.flatten_append, ih]

/-! ## Evaluating the converter on well-formed inputs -/

theorem countCovered_mk (fs : List FuncSpec) :
    countCovered (fs.map mkFunc) = .ok (fs.countP (fun f => decide (0 < f.2.2))) := by
  unfold countCovered
  rw [mapE_map_ok _ mkFunc (fun f => f.2.2) (fun x => rfl)]
  simp [List.countP_map]
  rfl

theorem fileRecord_mk (p : String) (lf lh : Nat) (fs : List FuncSpec) :
    fileRecord (mkFile p lf lh fs) = .ok (recordOf p lf lh fs) := by
  unfold fileRecord mkFile recordOf
  simp only [Option.getD_some]
  rw [show req (some p) "path" = Except.ok p from rfl,
      show req (some lf) "executableLines" = Except.ok lf from rfl,
      show req (some lh) "coveredLines" = Except.ok lh from rfl]
  rw [mapE_map_ok emitFunctionDef mkFunc (fun f => [fnLineOf f, fndaLineOf f]) (fun f => rfl)]
  rw [mapE_map_ok emitDaLine mkFunc daLineOf (fun f => rfl)]
  rw [countCovered_mk]
  simp only [List.length_map]
  rfl

theorem convert_mk (tgts : List (List FileSpec)) :
    convert_xccov_to_lcov (mkData tgts) = .ok ((tgts.flatten.map recordOfSpec).flatten) := by
  unfold convert_xccov_to_lcov mkData
  simp only [Option.getD_some]
  have hinner : ∀ fs : List FileSpec,
      mapE fileRecord ((TargetData.mk (some (fs.map mkFileSpec))).files.getD [])
        = .ok (fs.map recordOfSpec) := by
    intro fs
    simp only [Option.getD_some]
    exact mapE_map_ok fileRecord mkFileSpec recordOfSpec
      (fun f => fileRecord_mk f.1 f.2.1 f.2.2.1 f.2.2.2) fs
  rw [mapE_map_ok (fun target => mapE fileRecord (target.files.getD []))
        (fun fs : List FileSpec => TargetData.mk (some (fs.map mkFileSpec)))
        (fun fs : List FileSpec => fs.map recordOfSpec) hinner tgts]
  show Except.ok ((List.map List.flatten
      (tgts.map (fun fs : List FileSpec => fs.map recordOfSpec))).flatten)
    = Except.ok ((tgts.flatten.map recordOfSpec).flatten)
  rw [List.map_map]
  rw [show (List.flatten ∘ fun fs : List FileSpec => fs.map recordOfSpec)
        = (fun fs : List FileSpec => (fs.map recordOfSpec).flatten) from rfl]
  rw [flatten_map_flatten]

/-! ## Classifying the lines of a record -/

theorem filter_pairs_fst {α : Type} (q : String → Bool) (g1 g2 : α → String)
    (h1 : ∀ f, q (g1 f) = true) (h2 : ∀ f, q (g2 f) = false) (fs : List α) :
    ((fs.map (fun f => [g1 f, g2 f])).flatten).filter q = fs.map g1 := by
  induction fs with
  | nil => rfl
  | cons f fs ih => simp [List.filter_cons, h1, h2, ih]

theorem filter_pairs_snd {α : Type} (q : String → Bool) (g1 g2 : α → String)
    (h1 : ∀ f, q (g1 f) = false) (h2 : ∀ f, q (g2 f) = true) (fs : List α) :
    ((fs.map (fun f => [g1 f, g2 f])).flatten).filter q = fs.map g2 := by
  induction fs with
  | nil => rfl
  | cons f fs ih => simp [List.filter_cons, h1, h2, ih]

theorem filter_pairs_none {α : Type} (q : String → Bool) (g1 g2 : α → String)
    (h1 : ∀ f, q (g1 f) = false) (h2 : ∀ f, q (g2 f) = false) (fs : List α) :
    ((fs.map (fun f => [g1 f, g2 f])).flatten).filter q = [] := by
  induction fs with
  | nil => rfl
  | cons f fs ih => simp [List.filter_cons, h1, h2, ih]

theorem filter_map_none {α : Type} (q : String → Bool) (g : α → String)
    (h : ∀ f, q (g f) = false) (fs : List α) : (fs.map g).filter q = [] := by
  induction fs with
  | nil => rfl
  | cons f fs ih => simp [List.filter_cons, h, ih]

theorem filter_map_all {α : Type} (q : String → Bool) (g : α → String)
    (h : ∀ f, q (g f) = true) (fs : List α) : (fs.map g).filter q = fs.map g := by
  induction fs with
  | nil => rfl
  | cons f fs ih => simp [List.filter_cons, h, ih]

theorem countP_pairs_zero {α : Type} (q : String → Bool) (g1 g2 : α → String)
    (h1 : ∀ f, q (g1 f) = false) (h2 : ∀ f, q (g2 f) = false) (fs : List α) :
    ((fs.map (fun f => [g1 f, g2 f])).flatten).countP q = 0 := by
  induction fs with
  | nil => rfl
  | cons f fs ih => simp [List.countP_cons, h1, h2, ih]

theorem countP_map_zero {α : Type} (q : String → Bool) (g : α → String)
    (h : ∀ f, q (g f) = false) (fs : List α) : (fs.map g).countP q = 0 := by
  induction fs with
  | nil => rfl
  | cons f fs ih => simp [List.countP_cons, h, ih]

theorem recordOf_filter (q : String → Bool) (p : String) (lf lh : Nat) (fs : List FuncSpec) :
    (recordOf p lf lh fs).filter q =
      ["TN:", "SF:" ++ p].filter q
      ++ ((fs.map (fun f => [fnLineOf f, fndaLineOf f])).flatten).filter q
      ++ ["FNF:" ++ toString fs.length,
          "FNH:" ++ toString (fs.countP (fun f => decide (0 < f.2.2)))].filter q
      ++ (fs.map daLineOf).filter q
      ++ ["LF:" ++ toString lf, "LH:" ++ toString lh, "end_of_record"].filter q := by
  simp only [recordOf, List.filter_append, List.append_assoc]

theorem recordOf_countP (q : String → Bool) (p : String) (lf lh : Nat) (fs : List FuncSpec) :
    (recordOf p lf lh fs).countP q =
      ["TN:", "SF:" ++ p].countP q
      + ((fs.map (fun f => [fnLineOf f, fndaLineOf f])).flatten).countP q
      + ["FNF:" ++ toString fs.length,
          "FNH:" ++ toString (fs.countP (fun f => decide (0 < f.2.2)))].countP q
      + (fs.map daLineOf).countP q
      + ["LF:" ++ toString lf, "LH:" ++ toString lh, "end_of_record"].countP q := by
  simp only [recordOf, List.countP_append]


/-- Each record contains the terminating marker exactly once. -/
theorem count_eor_record (f : FileSpec) :
    (recordOfSpec f).countP (fun l => l == "end_of_record") = 1 := by
  show (recordOf f.1 f.2.1 f.2.2.1 f.2.2.2).countP (fun l => l == "end_of_record") = 1
  rw [recordOf_countP]
  rw [countP_pairs_zero (fun l => l == "end_of_record") fnLineOf fndaLineOf
        (fun g => rfl) (fun g => rfl)]
  rw [countP_map_zero (fun l => l == "end_of_record") daLineOf (fun g => rfl)]
  rw [show (["TN:", "SF:" ++ f.1].countP (fun l => l == "end_of_record")) = 0 from rfl]
  rw [show (["FNF:" ++ toString f.2.2.2.length,
             "FNH:" ++ toString (f.2.2.2.countP (fun g => decide (0 < g.2.2)))].countP
            (fun l => l == "end_of_record")) = 0 from rfl]
  rw [show (["LF:" ++ toString f.2.1, "LH:" ++ toString f.2.2.1,
             "end_of_record"].countP (fun l => l == "end_of_record")) = 1 from rfl]

/-- Concatenated records contain one terminating marker per file. -/
theorem countP_eor_records (files : List FileSpec) :
    ((files.map recordOfSpec).flatten).countP (fun l => l == "end_of_record")
      = files.length := by
  induction files with
  | nil => rfl
  | cons f fs ih =>
    simp only [List.map_cons, List.flatten_cons, List.countP_append, ih, count_eor_record,
      List.length_cons]
    omega

/-- Each record contains exactly one source-file line, carrying its path. -/
theorem filter_sf_record (f : FileSpec) :
    (recordOfSpec f).filter (fun l => startsWithTag "SF:" l) = ["SF:" ++ f.1] := by
  show (recordOf f.1 f.2.1 f.2.2.1 f.2.2.2).filter (fun l => startsWithTag "SF:" l) = _
  rw [recordOf_filter]
  rw [filter_pairs_none (fun l => startsWithTag "SF:" l) fnLineOf fndaLineOf
        (fun g => rfl) (fun g => rfl)]
  rw [filter_map_none (fun l => startsWithTag "SF:" l) daLineOf (fun g => rfl)]
  rw [show (["TN:", "SF:" ++ f.1].filter (fun l => startsWithTag "SF:" l))
        = ["SF:" ++ f.1] from rfl]
  rw [show (["FNF:" ++ toString f.2.2.2.length,
             "FNH:" ++ toString (f.2.2.2.countP (fun g => decide (0 < g.2.2)))].filter
            (fun l => startsWithTag "SF:" l)) = [] from rfl]
  rw [show (["LF:" ++ toString f.2.1, "LH:" ++ toString f.2.2.1,
             "end_of_record"].filter (fun l => startsWithTag "SF:" l)) = [] from rfl]
  simp

/-- The source-file lines of the whole output list the files in order. -/
theorem filter_sf_records (files : List FileSpec) :
    ((files.map recordOfSpec).flatten).filter (fun l => startsWithTag "SF:" l)
      = files.map (fun f => "SF:" ++ f.1) := by
  induction files with
  | nil => rfl
  | cons f fs ih =>
    simp only [List.map_cons, List.flatten_cons, List.filter_append, ih, filter_sf_record]
    rfl

/-- C1: on the spec's concrete scenario input, the converter writes exactly
the bytes of the thirteen listed lines, each newline-terminated, in order,
and nothing else. -/
theorem converter_scenario_exact_output :
    lcovBytes sampleInput =
      .ok "TN:\nSF:A.swift\nFN:3,f()\nFNDA:2,f()\nFN:8,g()\nFNDA:0,g()\nFNF:2\nFNH:1\nDA:3,2\nDA:8,0\nLF:10\nLH:7\nend_of_record\n" :=
  rfl

/-- C2: for every well-formed input, the output contains exactly one
`end_of_record` marker per File Coverage (so their number is the sum of the
per-target file counts), and the per-file records, identified by their
`SF:` lines, appear in the input's target-then-file order. -/
theorem converter_record_count_and_order (tgts : List (List FileSpec)) :
    ∃ out, convert_xccov_to_lcov (mkData tgts) = .ok out ∧
      out.countP (fun l => l == "end_of_record") = (tgts.map List.length).sum ∧
      out.filter (fun l => startsWithTag "SF:" l)
        = tgts.flatten.map (fun f => "SF:" ++ f.1) := by
  refine ⟨_, convert_mk tgts, ?_, filter_sf_records tgts.flatten⟩
  rw [countP_eor_records]
  simp [List.length_flatten]


/-- C3: each File Coverage with K functions yields exactly K `FN:` lines and
K `FNDA:` lines; the j-th line of each kind is built from the j-th input
function (so both lists follow the input order and stay aligned). -/
theorem converter_fn_fnda_order (p : String) (lf lh : Nat) (fs : List FuncSpec) :
    ∃ rec, fileRecord (mkFile p lf lh fs) = .ok rec ∧
      rec.filter (fun l => startsWithTag "FN:" l) = fs.map fnLineOf ∧
      rec.filter (fun l => startsWithTag "FNDA:" l) = fs.map fndaLineOf ∧
      (rec.filter (fun l => startsWithTag "FN:" l)).length = fs.length ∧
      (rec.filter (fun l => startsWithTag "FNDA:" l)).length = fs.length := by
  have h1 : (recordOf p lf lh fs).filter (fun l => startsWithTag "FN:" l)
      = fs.map fnLineOf := by
    rw [recordOf_filter]
    rw [filter_pairs_fst (fun l => startsWithTag "FN:" l) fnLineOf fndaLineOf
          (fun g => rfl) (fun g => rfl)]
    rw [filter_map_none (fun l => startsWithTag "FN:" l) daLineOf (fun g => rfl)]
    rw [show (["TN:", "SF:" ++ p].filter (fun l => startsWithTag "FN:" l)) = [] from rfl]
    rw [show (["FNF:" ++ toString fs.length,
               "FNH:" ++ toString (fs.countP (fun g => decide (0 < g.2.2)))].filter
              (fun l => startsWithTag "FN:" l)) = [] from rfl]
    rw [show (["LF:" ++ toString lf, "LH:" ++ toString lh, "end_of_record"].filter
              (fun l => startsWithTag "FN:" l)) = [] from rfl]
    simp
  have h2 : (recordOf p lf lh fs).filter (fun l => startsWithTag "FNDA:" l)
      = fs.map fndaLineOf := by
    rw [recordOf_filter]
    rw [filter_pairs_snd (fun l => startsWithTag "FNDA:" l) fnLineOf fndaLineOf
          (fun g => rfl) (fun g => rfl)]
    rw [filter_map_none (fun l => startsWithTag "FNDA:" l) daLineOf (fun g => rfl)]
    rw [show (["TN:", "SF:" ++ p].filter (fun l => startsWithTag "FNDA:" l)) = [] from rfl]
    rw [show (["FNF:" ++ toString fs.length,
               "FNH:" ++ toString (fs.countP (fun g => decide (0 < g.2.2)))].filter
              (fun l => startsWithTag "FNDA:" l)) = [] from rfl]
    rw [show (["LF:" ++ toString lf, "LH:" ++ toString lh, "end_of_record"].filter
              (fun l => startsWithTag "FNDA:" l)) = [] from rfl]
    simp
  exact ⟨_, fileRecord_mk p lf lh fs, h1, h2,
    by rw [h1, List.length_map], by rw [h2, List.length_map]⟩

/-- C4: the `FNF:` line carries the total number of functions and the
`FNH:` line carries the number of functions with `executionCount > 0`,
so a function with executionCount 0 counts for FNF but not FNH. -/
theorem converter_fnf_fnh_counts (p : String) (lf lh : Nat) (fs : List FuncSpec) :
    ∃ rec, fileRecord (mkFile p lf lh fs) = .ok rec ∧
      rec.filter (fun l => startsWithTag "FNF:" l) = ["FNF:" ++ toString fs.length] ∧
      rec.filter (fun l => startsWithTag "FNH:" l)
        = ["FNH:" ++ toString (fs.countP (fun g => decide (0 < g.2.2)))] := by
  refine ⟨_, fileRecord_mk p lf lh fs, ?_, ?_⟩
  · rw [recordOf_filter]
    rw [filter_pairs_none (fun l => startsWithTag "FNF:" l) fnLineOf fndaLineOf
          (fun g => rfl) (fun g => rfl)]
    rw [filter_map_none (fun l => startsWithTag "FNF:" l) daLineOf (fun g => rfl)]
    rw [show (["TN:", "SF:" ++ p].filter (fun l => startsWithTag "FNF:" l)) = [] from rfl]
    rw [show (["FNF:" ++ toString fs.length,
               "FNH:" ++ toString (fs.countP (fun g => decide (0 < g.2.2)))].filter
              (fun l => startsWithTag "FNF:" l)) = ["FNF:" ++ toString fs.length] from rfl]
    rw [show (["LF:" ++ toString lf, "LH:" ++ toString lh, "end_of_record"].filter
              (fun l => startsWithTag "FNF:" l)) = [] from rfl]
    simp
  · rw [recordOf_filter]
    rw [filter_pairs_none (fun l => startsWithTag "FNH:" l) fnLineOf fndaLineOf
          (fun g => rfl) (fun g => rfl)]
    rw [filter_map_none (fun l => startsWithTag "FNH:" l) daLineOf (fun g => rfl)]
    rw [show (["TN:", "SF:" ++ p].filter (fun l => startsWithTag "FNH:" l)) = [] from rfl]
    rw [show (["FNF:" ++ toString fs.length,
               "FNH:" ++ toString (fs.countP (fun g => decide (0 < g.2.2)))].filter
              (fun l => startsWithTag "FNH:" l))
          = ["FNH:" ++ toString (fs.countP (fun g => decide (0 < g.2.2)))] from rfl]
    rw [show (["LF:" ++ toString lf, "LH:" ++ toString lh, "end_of_record"].filter
              (fun l => startsWithTag "FNH:" l)) = [] from rfl]
    simp

/-- C5: the `LF:` line carries `executableLines` and the `LH:` line carries
`coveredLines`, verbatim, whatever the functions' execution counts are; the
theorem holds for all `lf`, `lh`, including `lh > lf`, so no validation is
performed. -/
theorem converter_lf_lh_verbatim (p : String) (lf lh : Nat) (fs : List FuncSpec) :
    ∃ rec, fileRecord (mkFile p lf lh fs) = .ok rec ∧
      rec.filter (fun l => startsWithTag "LF:" l) = ["LF:" ++ toString lf] ∧
      rec.filter (fun l => startsWithTag "LH:" l) = ["LH:" ++ toString lh] := by
  refine ⟨_, fileRecord_mk p lf lh fs, ?_, ?_⟩
  · rw [recordOf_filter]
    rw [filter_pairs_none (fun l => startsWithTag "LF:" l) fnLineOf fndaLineOf
          (fun g => rfl) (fun g => rfl)]
    rw [filter_map_none (fun l => startsWithTag "LF:" l) daLineOf (fun g => rfl)]
    rw [show (["TN:", "SF:" ++ p].filter (fun l => startsWithTag "LF:" l)) = [] from rfl]
    rw [show (["FNF:" ++ toString fs.length,
               "FNH:" ++ toString (fs.countP (fun g => decide (0 < g.2.2)))].filter
              (fun l => startsWithTag "LF:" l)) = [] from rfl]
    rw [show (["LF:" ++ toString lf, "LH:" ++ toString lh, "end_of_record"].filter
              (fun l => startsWithTag "LF:" l)) = ["LF:" ++ toString lf] from rfl]
    simp
  · rw [recordOf_filter]
    rw [filter_pairs_none (fun l => startsWithTag "LH:" l) fnLineOf fndaLineOf
          (fun g => rfl) (fun g => rfl)]
    rw [filter_map_none (fun l => startsWithTag "LH:" l) daLineOf (fun g => rfl)]
    rw [show (["TN:", "SF:" ++ p].filter (fun l => startsWithTag "LH:" l)) = [] from rfl]
    rw [show (["FNF:" ++ toString fs.length,
               "FNH:" ++ toString (fs.countP (fun g => decide (0 < g.2.2)))].filter
              (fun l => startsWithTag "LH:" l)) = [] from rfl]
    rw [show (["LF:" ++ toString lf, "LH:" ++ toString lh, "end_of_record"].filter
              (fun l => startsWithTag "LH:" l)) = ["LH:" ++ toString lh] from rfl]
    simp

/-- C6: each File Coverage with K functions yields exactly K `DA:` lines, in
input order, the j-th carrying the j-th function's line number and execution
count, derived from the function list alone. -/
theorem converter_da_lines (p : String) (lf lh : Nat) (fs : List FuncSpec) :
    ∃ rec, fileRecord (mkFile p lf lh fs) = .ok rec ∧
      rec.filter (fun l => startsWithTag "DA:" l) = fs.map daLineOf ∧
      (rec.filter (fun l => startsWithTag "DA:" l)).length = fs.length := by
  have h1 : (recordOf p lf lh fs).filter (fun l => startsWithTag "DA:" l)
      = fs.map daLineOf := by
    rw [recordOf_filter]
    rw [filter_pairs_none (fun l => startsWithTag "DA:" l) fnLineOf fndaLineOf
          (fun g => rfl) (fun g => rfl)]
    rw [filter_map_all (fun l => startsWithTag "DA:" l) daLineOf (fun g => rfl)]
    rw [show (["TN:", "SF:" ++ p].filter (fun l => startsWithTag "DA:" l)) = [] from rfl]
    rw [show (["FNF:" ++ toString fs.length,
               "FNH:" ++ toString (fs.countP (fun g => decide (0 < g.2.2)))].filter
              (fun l => startsWithTag "DA:" l)) = [] from rfl]
    rw [show (["LF:" ++ toString lf, "LH:" ++ toString lh, "end_of_record"].filter
              (fun l => startsWithTag "DA:" l)) = [] from rfl]
    simp
  exact ⟨_, fileRecord_mk p lf lh fs, h1, by rw [h1, List.length_map]⟩

/-- C7: a File Coverage with an empty function list yields the record
`TN:`, `SF:<path>`, `FNF:0`, `FNH:0`, `LF:`, `LH:`, `end_of_record`, with no
`FN:`, `FNDA:` or `DA:` lines. -/
theorem converter_empty_functions_record (p : String) (lf lh : Nat) :
    ∃ rec, fileRecord (mkFile p lf lh []) = .ok rec ∧
      rec = ["TN:", "SF:" ++ p, "FNF:0", "FNH:0",
             "LF:" ++ toString lf, "LH:" ++ toString lh, "end_of_record"] ∧
      rec.filter (fun l => startsWithTag "FN:" l) = [] ∧
      rec.filter (fun l => startsWithTag "FNDA:" l) = [] ∧
      rec.filter (fun l => startsWithTag "DA:" l) = [] ∧
      rec.countP (fun l => l == "end_of_record") = 1 :=
  ⟨_, fileRecord_mk p lf lh [], rfl, rfl, rfl, rfl, rfl⟩


/-- C8: the conversion is deterministic — the emitted bytes are a function
of the input alone, so two runs on the same input agree. -/
theorem converter_deterministic (d : CoverageData) (out1 out2 : Except String String)
    (h1 : lcovBytes d = out1) (h2 : lcovBytes d = out2) : out1 = out2 :=
  h1.symm.trans h2

/-- Witness for C8 at the scenario input. -/
theorem converter_deterministic_witness :
    lcovBytes sampleInput = lcovBytes sampleInput :=
  converter_deterministic sampleInput (lcovBytes sampleInput) (lcovBytes sampleInput) rfl rfl

/-! ## Error behaviour -/

theorem emitFunctionDef_ok_fields (fn : FuncData) (v : List String)
    (h : emitFunctionDef fn = .ok v) : funcHasMissing fn = false := by
  obtain ⟨n, l, c⟩ := fn
  cases n with
  | none => exact Except.noConfusion h
  | some n =>
    cases l with
    | none => exact Except.noConfusion h
    | some l =>
      cases c with
      | none => exact Except.noConfusion h
      | some c => rfl

theorem emitFunctionDef_error (fn : FuncData) (e : String)
    (h : emitFunctionDef fn = .error e) : funcFieldMissing fn e = true := by
  obtain ⟨n, l, c⟩ := fn
  cases n with
  | none =>
    have h2 : (Except.error "name" : Except String (List String)) = .error e := h
    cases h2
    rfl
  | some n =>
    cases l with
    | none =>
      have h2 : (Except.error "lineNumber" : Except String (List String)) = .error e := h
      cases h2
      rfl
    | some l =>
      cases c with
      | none =>
        have h2 : (Except.error "executionCount" : Except String (List String)) = .error e := h
        cases h2
        rfl
      | some c => exact Except.noConfusion h

theorem emitDaLine_error (fn : FuncData) (e : String)
    (h : emitDaLine fn = .error e) : funcFieldMissing fn e = true := by
  obtain ⟨n, l, c⟩ := fn
  cases l with
  | none =>
    have h2 : (Except.error "lineNumber" : Except String String) = .error e := h
    cases h2
    rfl
  | some l =>
    cases c with
    | none =>
      have h2 : (Except.error "executionCount" : Except String String) = .error e := h
      cases h2
      rfl
    | some c => exact Except.noConfusion h

theorem reqCount_error (fn : FuncData) (e : String)
    (h : req fn.executionCount "executionCount" = .error e) : funcFieldMissing fn e = true := by
  obtain ⟨n, l, c⟩ := fn
  cases c with
  | none =>
    have h2 : (Except.error "executionCount" : Except String Nat) = .error e := h
    cases h2
    rfl
  | some c => exact Except.noConfusion h

/-- When processing one File Coverage fails, the reported key is the name of
a required field that is indeed absent from it. -/
theorem fileRecord_error (fd : FileData) (e : String)
    (h : fileRecord fd = .error e) : fileFieldMissing fd e = true := by
  obtain ⟨po, lfo, lho, fno⟩ := fd
  cases po with
  | none =>
    have h2 : (Except.error "path" : Except String (List String)) = .error e := h
    cases h2
    rfl
  | some p =>
    unfold fileRecord at h
    rcases except_bind_error h with hp | ⟨p2, _, h2⟩
    · exact Except.noConfusion hp
    · rcases except_bind_error h2 with hfn | ⟨pairs, _, h3⟩
      · obtain ⟨fn, hmem, hfe⟩ := mapE_error_mem hfn
        have hm := emitFunctionDef_error fn e hfe
        simp [fileFieldMissing, List.any_eq_true]
        exact Or.inr ⟨fn, hmem, hm⟩
      · rcases except_bind_error h3 with hcc | ⟨cov, _, h4⟩
        · unfold countCovered at hcc
          rcases except_bind_error hcc with hccm | ⟨cs, _, hpure⟩
          · obtain ⟨fn, hmem, hfe⟩ := mapE_error_mem hccm
            have hm := reqCount_error fn e hfe
            simp [fileFieldMissing, List.any_eq_true]
            exact Or.inr ⟨fn, hmem, hm⟩
          · exact Except.noConfusion hpure
        · rcases except_bind_error h4 with hda | ⟨da, _, h5⟩
          · obtain ⟨fn, hmem, hfe⟩ := mapE_error_mem hda
            have hm := emitDaLine_error fn e hfe
            simp [fileFieldMissing, List.any_eq_true]
            exact Or.inr ⟨fn, hmem, hm⟩
          · rcases except_bind_error h5 with hlf | ⟨lf, _, h6⟩
            · cases lfo with
              | none =>
                have h7 : (Except.error "executableLines" : Except String Nat) = .error e := hlf
                cases h7
                rfl
              | some lf => exact Except.noConfusion hlf
            · rcases except_bind_error h6 with hlh | ⟨lh, _, h7⟩
              · cases lho with
                | none =>
                  have h8 : (Except.error "coveredLines" : Except String Nat) = .error e := hlh
                  cases h8
                  rfl
                | some lh => exact Except.noConfusion hlh
              · exact Except.noConfusion h7

/-- When processing one File Coverage succeeds, none of its required fields
was absent. -/
theorem fileRecord_ok_no_missing (fd : FileData) (r : List String)
    (h : fileRecord fd = .ok r) : fileHasMissing fd = false := by
  obtain ⟨po, lfo, lho, fno⟩ := fd
  cases po with
  | none => exact Except.noConfusion h
  | some p =>
    unfold fileRecord at h
    obtain ⟨p2, _, h2⟩ := except_bind_ok h
    obtain ⟨pairs, hpairs, h3⟩ := except_bind_ok h2
    obtain ⟨cov, _, h4⟩ := except_bind_ok h3
    obtain ⟨da, _, h5⟩ := except_bind_ok h4
    obtain ⟨lf, hlf, h6⟩ := except_bind_ok h5
    obtain ⟨lh, hlh, _⟩ := except_bind_ok h6
    have hfns : ∀ fn ∈ (fno.getD []), funcHasMissing fn = false := by
      intro fn hmem
      obtain ⟨v, hv⟩ := mapE_ok_mem hpairs fn hmem
      exact emitFunctionDef_ok_fields fn v hv
    cases lfo with
    | none => exact Except.noConfusion hlf
    | some lf2 =>
      cases lho with
      | none => exact Except.noConfusion hlh
      | some lh2 =>
        simp [fileHasMissing, List.any_eq_false]
        intro fn hmem
        exact hfns fn hmem

/-- C9: when some File Coverage entry lacks `path`, `executableLines` or
`coveredLines`, or some Function Coverage entry lacks `name`, `lineNumber`
or `executionCount`, the conversion fails with an error naming a required
field that is indeed absent, instead of skipping the entry or emitting a
default. -/
theorem converter_missing_field_error (d : CoverageData)
    (h : hasMissingRequired d = true) :
    ∃ key, convert_xccov_to_lcov d = .error key ∧ dataFieldMissing d key = true := by
  cases hc : convert_xccov_to_lcov d with
  | ok out =>
    exfalso
    unfold convert_xccov_to_lcov at hc
    obtain ⟨rpt, hrpt, _⟩ := except_bind_ok hc
    simp only [hasMissingRequired, List.any_eq_true] at h
    obtain ⟨t, ht, fd, hfd, hmiss⟩ := h
    obtain ⟨recs, hrecs⟩ := mapE_ok_mem hrpt t ht
    obtain ⟨r, hr⟩ := mapE_ok_mem hrecs fd hfd
    rw [fileRecord_ok_no_missing fd r hr] at hmiss
    exact Bool.false_ne_true hmiss
  | error key =>
    refine ⟨key, rfl, ?_⟩
    unfold convert_xccov_to_lcov at hc
    rcases except_bind_error hc with h1 | ⟨rpt, _, h2⟩
    · obtain ⟨t, ht, h1t⟩ := mapE_error_mem h1
      obtain ⟨fd, hfd, h1f⟩ := mapE_error_mem h1t
      have hm := fileRecord_error fd key h1f
      simp only [dataFieldMissing, List.any_eq_true]
      exact ⟨t, ht, fd, hfd, hm⟩
    · exact Except.noConfusion h2

/-- Witness for C9: an input whose single file lacks `path` makes the
converter fail, reporting a field that is indeed missing. -/
theorem converter_missing_field_error_witness :
    hasMissingRequired missingPathInput = true ∧
    ∃ key, convert_xccov_to_lcov missingPathInput = .error key ∧
      dataFieldMissing missingPathInput key = true :=
  ⟨rfl, converter_missing_field_error missingPathInput rfl⟩

/-- C10: reading and parsing the input happens before the output file is
touched — when the input source is unreadable or not valid JSON, the run
fails with that error and the output file is neither created nor truncated
nor written. -/
theorem converter_input_error_no_output (src : InputSource) (e : String)
    (h : readInput src = .error e) :
    outputTouched src = false ∧ runScript src = .error e := by
  constructor
  · unfold outputTouched
    rw [h]
  · unfold runScript
    rw [h]
    rfl

/-- Witness for C10 at an unreadable input source. -/
theorem converter_input_error_no_output_witness :
    readInput InputSource.unreadable = .error "InputError: unreadable input" ∧
    outputTouched InputSource.unreadable = false ∧
    runScript InputSource.unreadable = .error "InputError: unreadable input" :=
  ⟨rfl, converter_input_error_no_output InputSource.unreadable
    "InputError: unreadable input" rfl⟩
